import Mathlib

/-!
Shallow embedding of the vision-based chess move detection pipeline of
`vision_thread.py` (class `VisionThread`), together with proofs of the
specification's claims about it.

Modelling conventions:
* A grayscale (or colour) raster is modelled as `Img := Nat → Nat → Nat`,
  the pixel value at (row, col); values are the `uint8` intensities 0..255.
  The canonical board image occupies rows/cols 0..511.
* External OpenCV kernels that the source merely calls (GaussianBlur,
  warpPerspective sampling, cvtColor, convertScaleAbs) are deterministic
  collaborators; they are passed in as function parameters.  Operations the
  source itself assembles pixelwise (absdiff, binary threshold, per-tile
  means, argsort, the candidate/legality scan, the retry sweep) are
  translated concretely.
* Python floats are modelled by `ℚ`.  Every float computation the claims
  touch is exact in IEEE doubles (tile means are `sum/4096` with the sum an
  integer ≤ 255*4096, the `np.arange` sweeps have exactly 9 resp. 11
  elements), so the rational model is faithful.
* The external orientation table `table.lookup` (module `table`, not part
  of the four source files; the spec describes it as static configuration
  raising for out-of-mapping indices) is a parameter `lookup : Nat → Option Nat`,
  `none` standing for the raised `ValueError`.
* `chess.Move(a, b)` is `Move.mk a b`; `board_obj.legal_moves` is the field
  `Board.legal_moves`; returning the move's UCI string is modelled as
  returning the move itself (UCI rendering is injective).
-/

/-- A raster image: pixel value at (row, col). -/
def Img : Type := Nat → Nat → Nat

/-- A chess move, as `chess.Move(from_square, to_square)`. -/
structure Move where
  from_square : Nat
  to_square : Nat
deriving DecidableEq, Repr

/-- The `board_obj` passed into the detector: all that is consulted is its
legal-move set (`move in board_obj.legal_moves`). -/
structure Board where
  legal_moves : List Move

/-- `chess.square_file(s)`: file 0-7 of a 0-63 square index. -/
def chess_square_file (s : Nat) : Nat := s % 8

/-- `chess.square_rank(s)`: rank 0-7 of a 0-63 square index. -/
def chess_square_rank (s : Nat) : Nat := s / 8

/-- `VisionThread.square_to_pixels`: centre pixel of the 64x64 tile of a
square on the 512x512 canonical image,
`(file*64 + 32, (7 - rank)*64 + 32)`. -/
def square_to_pixels (square_index : Nat) : Nat × Nat :=
  (chess_square_file square_index * 64 + 32,
   (7 - chess_square_rank square_index) * 64 + 32)

/-- `VisionThread._get_tile`: the 64x64 sub-image of a 1-based tile index,
`x = (tile_idx-1) % 8`, `y = floor((tile_idx-1)/8)`,
slice `img[y*64:(y+1)*64, x*64:(x+1)*64]`. -/
def get_tile (img : Img) (tile_idx : Nat) : Img :=
  fun r c => img ((tile_idx - 1) / 8 * 64 + r) ((tile_idx - 1) % 8 * 64 + c)

/-- Sum of the 64x64 pixels of a 1-based tile. -/
def tile_sum (img : Img) (tile_idx : Nat) : Nat :=
  ∑ r in Finset.range 64, ∑ c in Finset.range 64, get_tile img tile_idx r c

/-- `np.average` over a 64x64 tile: the integer pixel sum divided by 4096
(exact in ℚ, and exact in IEEE doubles as the source computes it).  Written
with `Rat.divInt`, which is the same rational division (see
`tile_average_eq_div` below) in a kernel-computable form. -/
def tile_average (img : Img) (tile_idx : Nat) : ℚ :=
  Rat.divInt (tile_sum img tile_idx) 4096

/-- Sanity: `tile_average` is the tile's pixel sum divided by 4096. -/
theorem tile_average_eq_div (img : Img) (tile_idx : Nat) :
    tile_average img tile_idx = (tile_sum img tile_idx : ℚ) / 4096 :=
  Rat.divInt_eq_div _ _

/-- The list `averages` built by `_find_uci_move_from_difference_image`:
`averages[x] = np.average(_get_tile(diff_img, x+1))` for `x` in 0..63. -/
def averages (diff_img : Img) : List ℚ :=
  (List.range 64).map fun x => tile_average diff_img (x + 1)

/-- `np.argsort`: the indices `0..v.length-1` sorted so that the
corresponding values are ascending (modelled with a stable insertion sort;
`np.argsort`'s tie order is unspecified, and no claim depends on ties). -/
def argsort (v : List ℚ) : List Nat :=
  List.insertionSort (fun a b => v.getD a 0 ≤ v.getD b 0) (List.range v.length)

/-- The two `try` blocks of `_find_uci_move_from_difference_image`: build
`chess.Move(table.lookup(origin_1based), table.lookup(dest_1based))` and the
reversed ordering, each dropped silently if `table.lookup` raises. -/
def candidate_moves (lookup : Nat → Option Nat) (origin_sq_idx_1based dest_sq_idx_1based : Nat) :
    List Move :=
  (match lookup origin_sq_idx_1based, lookup dest_sq_idx_1based with
    | some o, some d => [Move.mk o d]
    | _, _ => []) ++
  (match lookup dest_sq_idx_1based, lookup origin_sq_idx_1based with
    | some o, some d => [Move.mk o d]
    | _, _ => [])

/-- The part of `_find_uci_move_from_difference_image` after the `averages`
list has been built: argsort, the fixed intensity gate `averages[to] < 20`,
candidate building through the 1-based lookup, and the first-legal scan. -/
def find_from_averages (lookup : Nat → Option Nat) (avgs : List ℚ)
    (board_obj : Board) : Option Move :=
  let sorted_indices := argsort avgs
  let from_sq_idx_raw := sorted_indices.getD 62 0
  let to_sq_idx_raw := sorted_indices.getD 63 0
  if avgs.getD to_sq_idx_raw 0 < 20 then
    none
  else
    (candidate_moves lookup (from_sq_idx_raw + 1) (to_sq_idx_raw + 1)).find?
      fun move => decide (move ∈ board_obj.legal_moves)

/-- `VisionThread._find_uci_move_from_difference_image`: per-tile means of
the difference image, then `find_from_averages` on them. -/
def find_uci_move_from_difference_image (lookup : Nat → Option Nat)
    (diff_img : Img) (board_obj : Board) : Option Move :=
  find_from_averages lookup (averages diff_img) board_obj

/-- `cv.absdiff` of two grayscale images, pixelwise `|a - b|`. -/
def absdiff (a b : Img) : Img :=
  fun y x => max (a y x) (b y x) - min (a y x) (b y x)

/-- `VisionThread._board_difference`: absolute difference of the two
Gaussian-blurred boards.  The (3,3) GaussianBlur kernel is the external
deterministic collaborator `blur`. -/
def board_difference (blur : Img → Img) (ob nb : Img) : Img :=
  absdiff (blur ob) (blur nb)

/-- `cv.threshold(img, t, 255, cv.THRESH_BINARY)`: pixel becomes 255 when
strictly above `t`, else 0. -/
def cv_threshold (img : Img) (t : Nat) : Img :=
  fun y x => if t < img y x then 255 else 0

/-- The detection pipeline as composed at lines 204-208 of the source:
blurred absolute difference, binary threshold at the caller's level, then
`_find_uci_move_from_difference_image`. -/
def detect (blur : Img → Img) (lookup : Nat → Option Nat)
    (oldGray newGray : Img) (thresh : Nat) (board_obj : Board) : Option Move :=
  find_uci_move_from_difference_image lookup
    (cv_threshold (board_difference blur oldGray newGray) thresh) board_obj

/-- An image together with its explicit extent (`rows × cols`), used for the
rectifier whose claim is about output size. -/
structure SizedImage where
  rows : Nat
  cols : Nat
  pix : Nat → Nat → Nat

/-- A 3x3 perspective-transform matrix. -/
def Mat : Type := Fin 3 → Fin 3 → ℚ

/-- `cv.warpPerspective(img, M, dsize)`: resamples `img` through `M` (the
resampling kernel is the external collaborator `sample`); the output raster
has exactly `dsize = (width, height)`, i.e. `height` rows and `width`
columns. -/
def warpPerspective (sample : SizedImage → Mat → Nat → Nat → Nat)
    (img : SizedImage) (M : Mat) (dsize : Nat × Nat) : SizedImage :=
  ⟨dsize.2, dsize.1, fun y x => sample img M y x⟩

/-- `VisionThread._crop_board`: perspective transform of the calibrated
corners onto `[[0,0],[512,0],[0,512],[512,512]]`, resampled to a 512x512
canonical image.  `getPT` is `cv.getPerspectiveTransform` (external exact
linear solve). -/
def crop_board (getPT : List (ℚ × ℚ) → List (ℚ × ℚ) → Mat)
    (sample : SizedImage → Mat → Nat → Nat → Nat)
    (corners : List (ℚ × ℚ)) (image : SizedImage) : SizedImage :=
  let newCorners : List (ℚ × ℚ) := [(0, 0), (512, 0), (0, 512), (512, 512)]
  warpPerspective sample image (getPT corners newCorners) (512, 512)

/-- The mutable detection state of the `VisionThread` object: the persisted
reference image `persisted_board_gray` and the persisted contrast level
`current_alpha` (`fixed_beta` is the constant 0 and is left implicit). -/
structure VisionState where
  persisted_board_gray : Option Img
  current_alpha : ℚ
deriving Nonempty

/-- The external OpenCV kernels used by `detect_player_move_cycle`, as
deterministic collaborators: `crop` is `_crop_board` at the thread's fixed
calibration, `adjust α` is `_adjust_lighting(·, alpha=α, beta=0)`
(`cv.convertScaleAbs` after grayscale promotion), `bgr2gray`/`gray2bgr` are
the `cv.cvtColor` conversions, and `blur` is the (3,3) `cv.GaussianBlur`
inside `_board_difference`. -/
structure CVOps where
  crop : Img → Img
  adjust : ℚ → Img → Img
  bgr2gray : Img → Img
  gray2bgr : Img → Img
  blur : Img → Img

/-- The environment a single call of `detect_player_move_cycle` runs in:
whether the capture device is open, the result of the k-th `cap.read()`
(`none` models `ret == False`), and the value of the k-th call of
`time.time()`. -/
structure Env where
  capOpened : Bool
  read : Nat → Option Img
  time : Nat → ℚ

/-- The 9 contrast values of `np.arange(0.9, 0.0, -0.1)` (phase 1 of the
sweep), as exact rationals; the float array has exactly these 9 entries up
to rounding noise that nothing in the code observes numerically. -/
def phase1_alphas : List ℚ :=
  [9/10, 8/10, 7/10, 6/10, 5/10, 4/10, 3/10, 2/10, 1/10]

/-- The 11 contrast values of `np.arange(1.1, 2.2, 0.1)` (phase 2). -/
def phase2_alphas : List ℚ :=
  [11/10, 12/10, 13/10, 14/10, 15/10, 16/10, 17/10, 18/10, 19/10, 20/10, 21/10]

/-- Result of one sweep phase: the successful step's data (move, alpha used,
freshly captured adjusted grayscale board) if any, the `tested_alpha` log of
the phase, and the `cap.read()` / `time.time()` call counters afterwards. -/
structure SweepOut where
  success : Option (Move × ℚ × Img)
  tested : List ℚ
  nReads : Nat
  nTimes : Nat

/-- One phase of the contrast sweep of `detect_player_move_cycle` (the two
`for alpha_val in np.arange(...)` loops have identical bodies up to the
alpha list, binarization threshold and time budget).  Each iteration:
check the wall-clock budget against `t0` and break the phase if exceeded;
log the alpha in `tested_alpha`; capture a fresh frame, breaking the phase
on capture failure; adjust, crop and grayscale it; re-adjust the frozen
`oldBoard_for_comparison_bgr`; difference, threshold, and run the detector,
returning on success.  `r`/`t` are the read/time call counters. -/
def sweep_loop (cv : CVOps) (lookup : Nat → Option Nat) (board_obj : Board)
    (env : Env) (thresh : Nat) (budget t0 : ℚ) (oldBGR : Img)
    (alphas : List ℚ) (r t : Nat) : SweepOut :=
  List.rec (motive := fun _ => Nat → Nat → SweepOut)
    (fun r t => ⟨none, [], r, t⟩)
    (fun alpha_val _rest ih r t =>
      if env.time t - t0 > budget then
        ⟨none, [], r, t + 1⟩
      else
        match env.read r with
        | none => ⟨none, [alpha_val], r + 1, t + 1⟩
        | some rescan_frame_full =>
          let newBoard_adjusted_gray :=
            cv.bgr2gray (cv.crop (cv.adjust alpha_val rescan_frame_full))
          let adjusted_oldBoard_gray := cv.bgr2gray (cv.adjust alpha_val oldBGR)
          let difference_adjusted :=
            cv_threshold
              (board_difference cv.blur adjusted_oldBoard_gray newBoard_adjusted_gray) thresh
          match find_uci_move_from_difference_image lookup difference_adjusted board_obj with
          | some m =>
            ⟨some (m, alpha_val, newBoard_adjusted_gray), [alpha_val], r + 1, t + 1⟩
          | none =>
            let out := ih (r + 1) (t + 1)
            ⟨out.success, alpha_val :: out.tested, out.nReads, out.nTimes⟩)
    alphas r t

/-- Result of a full `detect_player_move_cycle` call: the returned move (if
any), the `VisionThread` state afterwards, the concatenated `tested_alpha`
log, and — mirroring the success log line of the sweep — the alpha and
fresh grayscale of the successful sweep step (`none` when the cycle failed
or succeeded already on the initial attempt). -/
structure CycleOut where
  move : Option Move
  state : VisionState
  tested : List ℚ
  sweepSuccess : Option (ℚ × Img)

/-- `VisionThread.detect_player_move_cycle`.  Faithful control flow:
camera-open guard; initial `cap.read()`; lazy initialization of
`persisted_board_gray` from the cropped, adjusted, grayscaled initial frame
when it is `None`; second `cap.read()` for the current board; initial
detection at `current_alpha` with threshold 20 (on success only the
reference is re-based, the alpha is untouched); otherwise `start_time`
is taken and phase 1 (threshold 40, 5 s budget) then phase 2 (threshold 70,
10 s cumulative budget) of the sweep run, both comparing against the frozen
`oldBoard_for_comparison_bgr`; a sweep success stores its alpha and fresh
grayscale; total failure leaves the (possibly lazily initialized) state. -/
def detect_player_move_cycle (cv : CVOps) (lookup : Nat → Option Nat)
    (env : Env) (board_obj : Board) (st : VisionState) : CycleOut :=
  if env.capOpened = false then ⟨none, st, [], none⟩
  else
    match env.read 0 with
    | none => ⟨none, st, [], none⟩
    | some initial_full_frame =>
      let initial_cropped_color := cv.crop initial_full_frame
      let persisted0 : Img :=
        match st.persisted_board_gray with
        | none => cv.bgr2gray (cv.adjust st.current_alpha initial_cropped_color)
        | some g => g
      let st1 : VisionState := ⟨some persisted0, st.current_alpha⟩
      match env.read 1 with
      | none => ⟨none, st1, [], none⟩
      | some current_full_frame =>
        let newBoard_current_gray :=
          cv.bgr2gray (cv.adjust st.current_alpha (cv.crop current_full_frame))
        let oldBoard_for_comparison_bgr := cv.gray2bgr persisted0
        let adjusted_oldBoard_gray_for_comp :=
          cv.bgr2gray (cv.adjust st.current_alpha oldBoard_for_comparison_bgr)
        match detect cv.blur lookup adjusted_oldBoard_gray_for_comp
            newBoard_current_gray 20 board_obj with
        | some m =>
          ⟨some m, ⟨some newBoard_current_gray, st.current_alpha⟩, [], none⟩
        | none =>
          let t0 := env.time 0
          let p1 := sweep_loop cv lookup board_obj env 40 5 t0
            oldBoard_for_comparison_bgr phase1_alphas 2 1
          match p1.success with
          | some (m, a, g) => ⟨some m, ⟨some g, a⟩, p1.tested, some (a, g)⟩
          | none =>
            let p2 := sweep_loop cv lookup board_obj env 70 10 t0
              oldBoard_for_comparison_bgr phase2_alphas p1.nReads p1.nTimes
            match p2.success with
            | some (m, a, g) => ⟨some m, ⟨some g, a⟩, p1.tested ++ p2.tested, some (a, g)⟩
            | none => ⟨none, st1, p1.tested ++ p2.tested, none⟩

/-! ### Helper lemmas and witness-building material -/

/-- An image that is constant on each 64x64 tile: pixel (y, x) carries the
value of the row-major 0-based tile `y/64*8 + x/64`.  Used to build concrete
test rasters whose per-tile means are immediate. -/
def tileImg (f : Nat → Nat) : Img :=
  fun y x => f (y / 64 * 8 + x / 64)

theorem get_tile_tileImg (f : Nat → Nat) (t r c : Nat) (hr : r < 64) (hc : c < 64) :
    get_tile (tileImg f) t r c = f (t - 1) := by
  have h1 : ((t - 1) / 8 * 64 + r) / 64 = (t - 1) / 8 := by omega
  have h2 : ((t - 1) % 8 * 64 + c) / 64 = (t - 1) % 8 := by omega
  simp only [get_tile, tileImg, h1, h2]
  congr 1
  omega

theorem tile_sum_tileImg (f : Nat → Nat) (t : Nat) :
    tile_sum (tileImg f) t = 4096 * f (t - 1) := by
  unfold tile_sum
  have hrow : ∀ r ∈ Finset.range 64,
      (∑ c in Finset.range 64, get_tile (tileImg f) t r c) = 64 * f (t - 1) := by
    intro r hr
    rw [Finset.sum_congr rfl fun c hc =>
      get_tile_tileImg f t r c (Finset.mem_range.mp hr) (Finset.mem_range.mp hc),
      Finset.sum_const, Finset.card_range, smul_eq_mul]
  rw [Finset.sum_congr rfl hrow, Finset.sum_const, Finset.card_range, smul_eq_mul]
  ring

theorem tile_average_tileImg (f : Nat → Nat) (t : Nat) :
    tile_average (tileImg f) t = (f (t - 1) : ℚ) := by
  rw [tile_average_eq_div, tile_sum_tileImg]
  push_cast
  field_simp

theorem averages_tileImg (f : Nat → Nat) :
    averages (tileImg f) = (List.range 64).map fun x => (f x : ℚ) := by
  unfold averages
  refine List.map_congr_left fun x _ => ?_
  rw [tile_average_tileImg]
  norm_num

theorem averages_getD (d : Img) (k : Nat) (hk : k < 64) :
    (averages d).getD k 0 = tile_average d (k + 1) := by
  unfold averages
  rw [List.getD_eq_getElem _ _ (by simpa using hk)]
  simp

theorem averages_length (d : Img) : (averages d).length = 64 := by
  simp [averages]

/-- If every tile mean of the difference image is below 20 (equivalently,
the largest tile mean is), the gate fires and no move is reported. -/
theorem find_uci_none_of_means_lt_20 (lookup : Nat → Option Nat) (d : Img)
    (b : Board) (h : ∀ k, k < 64 → tile_average d (k + 1) < 20) :
    find_uci_move_from_difference_image lookup d b = none := by
  simp only [find_uci_move_from_difference_image, find_from_averages]
  have hval : (averages d).getD ((argsort (averages d)).getD 63 0) 0 < 20 := by
    rcases Nat.lt_or_ge ((argsort (averages d)).getD 63 0) 64 with hlt | hge
    · rw [averages_getD d _ hlt]
      exact h _ hlt
    · rw [List.getD_eq_default]
      · norm_num
      · rw [averages_length]
        exact hge
  rw [if_pos hval]

/-- Shared fixture: an orientation table with no mappings at all. -/
def wLookupNone : Nat → Option Nat := fun _ => none

/-- Shared fixture: a position with an empty legal-move set. -/
def wBoardEmpty : Board := ⟨[]⟩

/-- Shared fixture: the all-black canonical image. -/
def zeroTiles : Img := tileImg fun _ => 0

/-- Claim C9: for every square index 0-63, `square_to_pixels` returns
`x = file*64+32` and `y = (7-rank)*64+32`, both inside the 512x512 canonical
image; in particular the square with file 4 and rank 0 (index 4) is centred
at pixel (288, 480). -/
theorem square_to_pixels_formula :
    (∀ s, s < 64 →
      square_to_pixels s = (s % 8 * 64 + 32, (7 - s / 8) * 64 + 32) ∧
      (square_to_pixels s).1 < 512 ∧ (square_to_pixels s).2 < 512) ∧
    square_to_pixels 4 = (288, 480) := by
  decide

/-- Witness for C9 at the concrete square index 4. -/
theorem square_to_pixels_formula_witness :
    4 < 64 ∧ square_to_pixels 4 = (4 % 8 * 64 + 32, (7 - 4 / 8) * 64 + 32) :=
  ⟨by decide, (square_to_pixels_formula.1 4 (by decide)).1⟩

/-- Claim C8: for every input frame and every calibration of exactly 4
corner points, the rectifier's canonical output image is exactly 512x512
(512 rows and 512 columns). -/
theorem crop_board_output_512 (getPT : List (ℚ × ℚ) → List (ℚ × ℚ) → Mat)
    (sample : SizedImage → Mat → Nat → Nat → Nat)
    (corners : List (ℚ × ℚ)) (image : SizedImage)
    (h : corners.length = 4) :
    (crop_board getPT sample corners image).rows = 512 ∧
    (crop_board getPT sample corners image).cols = 512 :=
  ⟨rfl, rfl⟩

/-- Fixture for C8: a trivial perspective-transform solver. -/
def wGetPT : List (ℚ × ℚ) → List (ℚ × ℚ) → Mat := fun _ _ _ _ => 0

/-- Fixture for C8: a trivial resampling kernel. -/
def wSample : SizedImage → Mat → Nat → Nat → Nat := fun _ _ _ _ => 0

/-- Fixture for C8: the spec's example calibration on a 640x480 frame. -/
def wCorners : List (ℚ × ℚ) := [(0, 0), (640, 0), (0, 480), (640, 480)]

/-- Fixture for C8: a 640x480 all-black frame. -/
def wFrame : SizedImage := ⟨480, 640, fun _ _ => 0⟩

/-- Witness for C8 at the spec's example calibration. -/
theorem crop_board_output_512_witness :
    wCorners.length = 4 ∧
    (crop_board wGetPT wSample wCorners wFrame).rows = 512 ∧
    (crop_board wGetPT wSample wCorners wFrame).cols = 512 :=
  ⟨rfl, crop_board_output_512 wGetPT wSample wCorners wFrame rfl⟩

/-- Claim C2: if the mean intensity of the highest-scoring tile is below 20
(equivalently: every one of the 64 tile means is below 20), the detector
reports no move, whatever the caller-side binarization threshold was (the
difference image is quantified over freely, and
`_find_uci_move_from_difference_image` takes no threshold parameter). -/
theorem gate_below_20_reports_no_move (lookup : Nat → Option Nat)
    (diff_img : Img) (board_obj : Board)
    (h : ∀ k, k < 64 → tile_average diff_img (k + 1) < 20) :
    find_uci_move_from_difference_image lookup diff_img board_obj = none :=
  find_uci_none_of_means_lt_20 lookup diff_img board_obj h

/-- Witness for C2 on the all-black difference image. -/
theorem gate_below_20_reports_no_move_witness :
    (∀ k, k < 64 → tile_average zeroTiles (k + 1) < 20) ∧
    find_uci_move_from_difference_image wLookupNone zeroTiles wBoardEmpty = none := by
  have h : ∀ k, k < 64 → tile_average zeroTiles (k + 1) < 20 := by
    intro k _
    rw [show zeroTiles = tileImg fun _ => 0 from rfl, tile_average_tileImg]
    norm_num
  exact ⟨h, gate_below_20_reports_no_move wLookupNone zeroTiles wBoardEmpty h⟩

/-- With identical reference and current images the thresholded difference
is identically zero and the gate fires, for any threshold. -/
theorem detect_same_none (blur : Img → Img) (lookup : Nat → Option Nat)
    (g : Img) (t : Nat) (board_obj : Board) :
    detect blur lookup g g t board_obj = none := by
  unfold detect
  have hz : cv_threshold (board_difference blur g g) t = (fun _ _ => 0 : Img) := by
    funext y x
    simp [cv_threshold, board_difference, absdiff]
  rw [hz]
  apply find_uci_none_of_means_lt_20
  intro k _
  have hs : tile_sum (fun _ _ => 0 : Img) (k + 1) = 0 := by
    simp [tile_sum, get_tile]
  unfold tile_average
  rw [hs]
  norm_num

/-- Claim C6: running the composed detection pipeline with identical
reference and current grayscale images returns `none` for any binarization
threshold at least 1 and any position. -/
theorem identical_frames_no_move (blur : Img → Img) (lookup : Nat → Option Nat)
    (g : Img) (t : Nat) (ht : 1 ≤ t) (board_obj : Board) :
    detect blur lookup g g t board_obj = none :=
  detect_same_none blur lookup g t board_obj

/-- Witness for C6 with threshold 1 and the all-black image. -/
theorem identical_frames_no_move_witness :
    1 ≤ 1 ∧ detect id wLookupNone zeroTiles zeroTiles 1 wBoardEmpty = none :=
  ⟨le_refl 1, identical_frames_no_move id wLookupNone zeroTiles 1 (le_refl 1) wBoardEmpty⟩

theorem argsort_perm (v : List ℚ) : List.Perm (argsort v) (List.range v.length) :=
  List.perm_insertionSort _ _

theorem argsort_sorted (v : List ℚ) :
    List.Sorted (fun a b => v.getD a 0 ≤ v.getD b 0) (argsort v) := by
  haveI : IsTotal Nat fun a b => v.getD a 0 ≤ v.getD b 0 := ⟨fun a b => le_total _ _⟩
  haveI : IsTrans Nat fun a b => v.getD a 0 ≤ v.getD b 0 :=
    ⟨fun a b c hab hbc => le_trans hab hbc⟩
  exact List.sorted_insertionSort _ _

/-- For a 64-entry value list with a strict maximum at `i` and a strict
second-largest value at `j`, the last two entries of `argsort` are `i` and
`j` respectively. -/
theorem argsort_top_two (v : List ℚ) (hlen : v.length = 64) (i j : Nat)
    (hi : i < 64) (hj : j < 64) (hij : j ≠ i)
    (hmax : ∀ k, k < 64 → k ≠ i → v.getD k 0 < v.getD i 0)
    (hsec : ∀ k, k < 64 → k ≠ i → k ≠ j → v.getD k 0 < v.getD j 0) :
    (argsort v).getD 63 0 = i ∧ (argsort v).getD 62 0 = j := by
  set s := argsort v with hs
  have hperm : List.Perm s (List.range 64) := by
    have := argsort_perm v
    rwa [hlen] at this
  have hslen : s.length = 64 := by
    rw [hperm.length_eq, List.length_range]
  have hmem : ∀ a, a ∈ s ↔ a < 64 := by
    intro a
    rw [hperm.mem_iff, List.mem_range]
  have hnodup : s.Nodup := hperm.nodup_iff.mpr (List.nodup_range 64)
  have hsorted : List.Sorted (fun a b => v.getD a 0 ≤ v.getD b 0) s := argsort_sorted v
  have h63lt : 63 < s.length := by omega
  have h62lt : 62 < s.length := by omega
  have hlast : s.get ⟨63, h63lt⟩ = i := by
    by_contra hne
    obtain ⟨idx, hidx⟩ := List.mem_iff_get.mp ((hmem i).mpr hi)
    have hm64 : s.get ⟨63, h63lt⟩ < 64 := (hmem _).mp (s.get_mem 63 h63lt)
    have hvlt : v.getD (s.get ⟨63, h63lt⟩) 0 < v.getD i 0 := hmax _ hm64 hne
    have hidxne : (idx : Nat) ≠ 63 := by
      intro hcontra
      apply hne
      rw [← hidx]
      congr 1
      exact Fin.ext hcontra.symm
    have hidxlt : idx < (⟨63, h63lt⟩ : Fin s.length) := by
      have h2 := idx.isLt
      have h3 : (idx : Nat) < 63 := by omega
      exact Fin.lt_def.mpr h3
    have hle : v.getD (s.get idx) 0 ≤ v.getD (s.get ⟨63, h63lt⟩) 0 :=
      hsorted.rel_get_of_lt hidxlt
    rw [hidx] at hle
    exact absurd hvlt (not_lt.mpr hle)
  have hsnd : s.get ⟨62, h62lt⟩ = j := by
    by_contra hne
    have hk64 : s.get ⟨62, h62lt⟩ < 64 := (hmem _).mp (s.get_mem 62 h62lt)
    have hkni : s.get ⟨62, h62lt⟩ ≠ i := by
      intro hcontra
      rw [← hlast] at hcontra
      have := (List.Nodup.get_inj_iff hnodup).mp hcontra
      simp at this
    have hvlt : v.getD (s.get ⟨62, h62lt⟩) 0 < v.getD j 0 := hsec _ hk64 hkni hne
    obtain ⟨idx, hidx⟩ := List.mem_iff_get.mp ((hmem j).mpr hj)
    have hidxne63 : (idx : Nat) ≠ 63 := by
      intro hcontra
      apply hij
      rw [← hidx, ← hlast]
      congr 1
      exact Fin.ext hcontra
    have hidxne62 : (idx : Nat) ≠ 62 := by
      intro hcontra
      apply hne
      rw [← hidx]
      congr 1
      exact Fin.ext hcontra.symm
    have hidxlt : idx < (⟨62, h62lt⟩ : Fin s.length) := by
      have h2 := idx.isLt
      have h3 : (idx : Nat) < 62 := by omega
      exact Fin.lt_def.mpr h3
    have hle : v.getD (s.get idx) 0 ≤ v.getD (s.get ⟨62, h62lt⟩) 0 :=
      hsorted.rel_get_of_lt hidxlt
    rw [hidx] at hle
    exact absurd hvlt (not_lt.mpr hle)
  constructor
  · rw [List.getD_eq_getElem _ _ h63lt]
    simpa [List.get_eq_getElem] using hlast
  · rw [List.getD_eq_getElem _ _ h62lt]
    simpa [List.get_eq_getElem] using hsnd

/-- Claim C3: when the difference image passes the intensity gate and has a
strictly highest-mean tile `i` and strictly second-highest tile `j`
(0-based), the detector translates both through the 1-based lookup, tries
the two orderings in fixed priority — second-highest as origin, highest as
destination first — and returns the first ordering legal for the position,
`none` if neither; consequently every returned move is legal. -/
theorem detector_top_two_fixed_priority (lookup : Nat → Option Nat)
    (diff_img : Img) (board_obj : Board) (i j : Nat)
    (hi : i < 64) (hj : j < 64) (hij : j ≠ i)
    (hmax : ∀ k, k < 64 → k ≠ i →
      tile_average diff_img (k + 1) < tile_average diff_img (i + 1))
    (hsec : ∀ k, k < 64 → k ≠ i → k ≠ j →
      tile_average diff_img (k + 1) < tile_average diff_img (j + 1))
    (hgate : 20 ≤ tile_average diff_img (i + 1)) :
    find_uci_move_from_difference_image lookup diff_img board_obj =
      (candidate_moves lookup (j + 1) (i + 1)).find?
        (fun move => decide (move ∈ board_obj.legal_moves)) ∧
    ∀ m, find_uci_move_from_difference_image lookup diff_img board_obj = some m →
      m ∈ board_obj.legal_moves := by
  obtain ⟨h63, h62⟩ := argsort_top_two (averages diff_img) (averages_length diff_img)
    i j hi hj hij
    (fun k hk hne => by
      rw [averages_getD _ _ hk, averages_getD _ _ hi]; exact hmax k hk hne)
    (fun k hk hne hnej => by
      rw [averages_getD _ _ hk, averages_getD _ _ hj]; exact hsec k hk hne hnej)
  have heq : find_uci_move_from_difference_image lookup diff_img board_obj =
      (candidate_moves lookup (j + 1) (i + 1)).find?
        (fun move => decide (move ∈ board_obj.legal_moves)) := by
    simp only [find_uci_move_from_difference_image, find_from_averages]
    rw [h62, h63, averages_getD _ _ hi, if_neg (not_lt.mpr hgate)]
  refine ⟨heq, fun m hm => ?_⟩
  rw [heq] at hm
  simpa using List.find?_some hm

/-- Fixture for C3: 0-based tile means — tile 52 (1-based 53) has mean 255,
tile 11 (1-based 12) has mean 100, all other tiles 0. -/
def wPat : Nat → Nat := fun i => if i = 52 then 255 else if i = 11 then 100 else 0

/-- Fixture for C3: the concrete difference image with those tile means. -/
def wPatImg : Img := tileImg wPat

/-- Fixture: an orientation table mapping 1-based tile `i` to square `i-1`. -/
def wLookupTable : Nat → Option Nat := fun i =>
  if 1 ≤ i ∧ i ≤ 64 then some (i - 1) else none

/-- Fixture: a position whose only legal move is square 11 to square 52. -/
def wBoardOne : Board := ⟨[Move.mk 11 52]⟩

theorem wPatImg_average (k : Nat) : tile_average wPatImg (k + 1) = (wPat k : ℚ) := by
  rw [show wPatImg = tileImg wPat from rfl, tile_average_tileImg]
  norm_num

/-- Witness for C3 on the spec's two-tile scenario (tiles 12 and 53
1-based, means 100 and 255). -/
theorem detector_top_two_fixed_priority_witness :
    20 ≤ tile_average wPatImg (52 + 1) ∧
    find_uci_move_from_difference_image wLookupTable wPatImg wBoardOne =
      (candidate_moves wLookupTable (11 + 1) (52 + 1)).find?
        (fun move => decide (move ∈ wBoardOne.legal_moves)) ∧
    (candidate_moves wLookupTable (11 + 1) (52 + 1)).find?
        (fun move => decide (move ∈ wBoardOne.legal_moves)) = some (Move.mk 11 52) := by
  have hgate : 20 ≤ tile_average wPatImg (52 + 1) := by
    rw [wPatImg_average]
    norm_num [wPat]
  have hNmax : ∀ k, k < 64 → k ≠ 52 → wPat k < wPat 52 := by decide
  have hNsec : ∀ k, k < 64 → k ≠ 52 → k ≠ 11 → wPat k < wPat 11 := by decide
  have hmax : ∀ k, k < 64 → k ≠ 52 →
      tile_average wPatImg (k + 1) < tile_average wPatImg (52 + 1) := by
    intro k hk hne
    rw [wPatImg_average, wPatImg_average]
    exact_mod_cast hNmax k hk hne
  have hsec : ∀ k, k < 64 → k ≠ 52 → k ≠ 11 →
      tile_average wPatImg (k + 1) < tile_average wPatImg (11 + 1) := by
    intro k hk hne hnej
    rw [wPatImg_average, wPatImg_average]
    exact_mod_cast hNsec k hk hne hnej
  exact ⟨hgate,
    (detector_top_two_fixed_priority wLookupTable wPatImg wBoardOne 52 11
      (by decide) (by decide) (by decide) hmax hsec hgate).1,
    by decide⟩

/-- Claim C1: when the persisted reference was set before the call and the
cycle returns `None` (the initial attempt and every sweep step failed), both
the persisted reference image and the persisted contrast level are exactly
as they were before the call. -/
theorem cycle_failure_preserves_state (cv : CVOps) (lookup : Nat → Option Nat)
    (env : Env) (board_obj : Board) (st : VisionState) (g : Img)
    (hp : st.persisted_board_gray = some g)
    (hnone : (detect_player_move_cycle cv lookup env board_obj st).move = none) :
    (detect_player_move_cycle cv lookup env board_obj st).state = st := by
  obtain ⟨p, a⟩ := st
  simp only [VisionState.persisted_board_gray] at hp
  subst hp
  revert hnone
  unfold detect_player_move_cycle
  dsimp only
  split
  · exact fun _ => rfl
  · split
    · exact fun _ => rfl
    · split
      · exact fun _ => rfl
      · split
        · exact fun h => Option.noConfusion h
        · split
          · exact fun h => Option.noConfusion h
          · split
            · exact fun h => Option.noConfusion h
            · exact fun _ => rfl

/-- Fixture: identity OpenCV collaborators (crop, lighting, colour
conversions and blur all leave the raster unchanged). -/
def wCVId : CVOps := ⟨id, fun _ g => g, id, id, id⟩

/-- Fixture: an open camera whose every read fails, clock frozen at 0. -/
def wEnvFail : Env := ⟨true, fun _ => none, fun _ => 0⟩

/-- Fixture: a state with the reference already set. -/
def wStSet : VisionState := ⟨some zeroTiles, 1⟩

/-- Witness for C1: a failing cycle on a state with a set reference. -/
theorem cycle_failure_preserves_state_witness :
    wStSet.persisted_board_gray = some zeroTiles ∧
    (detect_player_move_cycle wCVId wLookupNone wEnvFail wBoardEmpty wStSet).move = none ∧
    (detect_player_move_cycle wCVId wLookupNone wEnvFail wBoardEmpty wStSet).state = wStSet :=
  ⟨rfl, rfl,
    cycle_failure_preserves_state wCVId wLookupNone wEnvFail wBoardEmpty wStSet zeroTiles
      rfl rfl⟩

/-- Claim C10: when the persisted reference is unset, a cycle whose first
capture succeeds initializes it from the freshly captured frame (cropped,
adjusted at the current alpha, grayscaled) before comparing — so even a
call that returns `None` leaves the reference newly set. -/
theorem cycle_lazy_initializes_reference (cv : CVOps) (lookup : Nat → Option Nat)
    (env : Env) (board_obj : Board) (st : VisionState) (f : Img)
    (hp : st.persisted_board_gray = none)
    (hcap : env.capOpened = true)
    (h0 : env.read 0 = some f)
    (hnone : (detect_player_move_cycle cv lookup env board_obj st).move = none) :
    (detect_player_move_cycle cv lookup env board_obj st).state.persisted_board_gray =
      some (cv.bgr2gray (cv.adjust st.current_alpha (cv.crop f))) := by
  obtain ⟨p, a⟩ := st
  simp only [VisionState.persisted_board_gray] at hp
  subst hp
  revert hnone
  unfold detect_player_move_cycle
  rw [if_neg (show ¬env.capOpened = false by simp [hcap]), h0]
  dsimp only
  split
  · exact fun _ => rfl
  · split
    · exact fun h => Option.noConfusion h
    · split
      · exact fun h => Option.noConfusion h
      · split
        · exact fun h => Option.noConfusion h
        · exact fun _ => rfl

/-- Fixture: camera delivering exactly one frame, then failing. -/
def wEnvOneRead : Env := ⟨true, fun k => if k = 0 then some zeroTiles else none, fun _ => 0⟩

/-- Fixture: a state with the reference unset. -/
def wStUnset : VisionState := ⟨none, 1⟩

/-- Witness for C10: the reference gets set by a cycle that returns none. -/
theorem cycle_lazy_initializes_reference_witness :
    wStUnset.persisted_board_gray = none ∧
    (detect_player_move_cycle wCVId wLookupNone wEnvOneRead wBoardEmpty wStUnset).move = none ∧
    (detect_player_move_cycle wCVId wLookupNone wEnvOneRead wBoardEmpty
      wStUnset).state.persisted_board_gray =
      some (wCVId.bgr2gray (wCVId.adjust wStUnset.current_alpha (wCVId.crop zeroTiles))) :=
  ⟨rfl, rfl,
    cycle_lazy_initializes_reference wCVId wLookupNone wEnvOneRead wBoardEmpty wStUnset
      zeroTiles rfl rfl rfl rfl⟩

/-- Claim C5: whenever a sweep step succeeds, the cycle's resulting state
persists exactly that step's alpha and that step's freshly captured,
adjusted grayscale image as the new reference. -/
theorem sweep_success_rebases_state (cv : CVOps) (lookup : Nat → Option Nat)
    (env : Env) (board_obj : Board) (st : VisionState) (a : ℚ) (g : Img)
    (h : (detect_player_move_cycle cv lookup env board_obj st).sweepSuccess = some (a, g)) :
    (detect_player_move_cycle cv lookup env board_obj st).state = ⟨some g, a⟩ := by
  obtain ⟨p, a0⟩ := st
  revert h
  cases p <;>
  · unfold detect_player_move_cycle
    dsimp only
    split
    · exact fun h => Option.noConfusion h
    · split
      · exact fun h => Option.noConfusion h
      · split
        · exact fun h => Option.noConfusion h
        · split
          · exact fun h => Option.noConfusion h
          · split
            · intro h
              obtain ⟨h1, h2⟩ := Prod.mk.inj (Option.some.inj h)
              subst h1
              subst h2
              rfl
            · split
              · intro h
                obtain ⟨h1, h2⟩ := Prod.mk.inj (Option.some.inj h)
                subst h1
                subst h2
                rfl
              · exact fun h => Option.noConfusion h

theorem sweep_loop_nil (cv : CVOps) (lookup : Nat → Option Nat)
    (board_obj : Board) (env : Env) (thresh : Nat) (budget t0 : ℚ) (oldBGR : Img)
    (r t : Nat) :
    sweep_loop cv lookup board_obj env thresh budget t0 oldBGR [] r t = ⟨none, [], r, t⟩ :=
  rfl

theorem sweep_loop_cons_timeout (cv : CVOps) (lookup : Nat → Option Nat)
    (board_obj : Board) (env : Env) (thresh : Nat) (budget t0 : ℚ) (oldBGR : Img)
    (alpha_val : ℚ) (rest : List ℚ) (r t : Nat)
    (htime : env.time t - t0 > budget) :
    sweep_loop cv lookup board_obj env thresh budget t0 oldBGR (alpha_val :: rest) r t =
      ⟨none, [], r, t + 1⟩ := by
  dsimp only [sweep_loop]
  rw [if_pos htime]

theorem sweep_loop_cons_read_none (cv : CVOps) (lookup : Nat → Option Nat)
    (board_obj : Board) (env : Env) (thresh : Nat) (budget t0 : ℚ) (oldBGR : Img)
    (alpha_val : ℚ) (rest : List ℚ) (r t : Nat)
    (htime : ¬env.time t - t0 > budget) (hread : env.read r = none) :
    sweep_loop cv lookup board_obj env thresh budget t0 oldBGR (alpha_val :: rest) r t =
      ⟨none, [alpha_val], r + 1, t + 1⟩ := by
  dsimp only [sweep_loop]
  rw [if_neg htime, hread]

theorem sweep_loop_cons_success (cv : CVOps) (lookup : Nat → Option Nat)
    (board_obj : Board) (env : Env) (thresh : Nat) (budget t0 : ℚ) (oldBGR : Img)
    (alpha_val : ℚ) (rest : List ℚ) (r t : Nat) (frame : Img) (m : Move)
    (htime : ¬env.time t - t0 > budget) (hread : env.read r = some frame)
    (hfind : find_uci_move_from_difference_image lookup
      (cv_threshold
        (board_difference cv.blur (cv.bgr2gray (cv.adjust alpha_val oldBGR))
          (cv.bgr2gray (cv.crop (cv.adjust alpha_val frame)))) thresh) board_obj = some m) :
    sweep_loop cv lookup board_obj env thresh budget t0 oldBGR (alpha_val :: rest) r t =
      ⟨some (m, alpha_val, cv.bgr2gray (cv.crop (cv.adjust alpha_val frame))),
        [alpha_val], r + 1, t + 1⟩ := by
  dsimp only [sweep_loop]
  rw [if_neg htime, hread]
  dsimp only
  rw [hfind]

theorem sweep_loop_cons_fail (cv : CVOps) (lookup : Nat → Option Nat)
    (board_obj : Board) (env : Env) (thresh : Nat) (budget t0 : ℚ) (oldBGR : Img)
    (alpha_val : ℚ) (rest : List ℚ) (r t : Nat) (frame : Img)
    (htime : ¬env.time t - t0 > budget) (hread : env.read r = some frame)
    (hfind : find_uci_move_from_difference_image lookup
      (cv_threshold
        (board_difference cv.blur (cv.bgr2gray (cv.adjust alpha_val oldBGR))
          (cv.bgr2gray (cv.crop (cv.adjust alpha_val frame)))) thresh) board_obj = none) :
    sweep_loop cv lookup board_obj env thresh budget t0 oldBGR (alpha_val :: rest) r t =
      (let out := sweep_loop cv lookup board_obj env thresh budget t0 oldBGR rest (r + 1) (t + 1)
       ⟨out.success, alpha_val :: out.tested, out.nReads, out.nTimes⟩) := by
  dsimp only [sweep_loop]
  rw [if_neg htime, hread]
  dsimp only
  rw [hfind]

/-- When the detector fails on every image, a sweep phase finds nothing, its
`tested_alpha` log is a prefix of its alpha list, and every logged step had
passed the wall-clock budget check. -/
theorem sweep_loop_spec (cv : CVOps) (lookup : Nat → Option Nat)
    (board_obj : Board) (env : Env) (thresh : Nat) (budget t0 : ℚ) (oldBGR : Img)
    (hfail : ∀ d, find_uci_move_from_difference_image lookup d board_obj = none) :
    ∀ (as : List ℚ) (r t : Nat),
      ∃ n, n ≤ as.length ∧
        (sweep_loop cv lookup board_obj env thresh budget t0 oldBGR as r t).success = none ∧
        (sweep_loop cv lookup board_obj env thresh budget t0 oldBGR as r t).tested = as.take n ∧
        (∀ i, i < n → env.time (t + i) - t0 ≤ budget) := by
  intro as
  induction as with
  | nil =>
    intro r t
    exact ⟨0, Nat.le_refl 0, by rw [sweep_loop_nil], by simp [sweep_loop_nil],
      fun i hi => absurd hi (Nat.not_lt_zero i)⟩
  | cons alpha_val rest ih =>
    intro r t
    by_cases htime : env.time t - t0 > budget
    · refine ⟨0, Nat.zero_le _, ?_, ?_, fun i hi => absurd hi (Nat.not_lt_zero i)⟩
      · rw [sweep_loop_cons_timeout cv lookup board_obj env thresh budget t0 oldBGR
          alpha_val rest r t htime]
      · rw [sweep_loop_cons_timeout cv lookup board_obj env thresh budget t0 oldBGR
          alpha_val rest r t htime]
        rfl
    · cases hread : env.read r with
      | none =>
        refine ⟨1, by simp, ?_, ?_, ?_⟩
        · rw [sweep_loop_cons_read_none cv lookup board_obj env thresh budget t0 oldBGR
            alpha_val rest r t htime hread]
        · rw [sweep_loop_cons_read_none cv lookup board_obj env thresh budget t0 oldBGR
            alpha_val rest r t htime hread]
          rfl
        · intro i hi
          have hi0 : i = 0 := by omega
          subst hi0
          simpa using not_lt.mp htime
      | some frame =>
        have hstep := sweep_loop_cons_fail cv lookup board_obj env thresh budget t0 oldBGR
          alpha_val rest r t frame htime hread (hfail _)
        obtain ⟨n, hn, hsucc, htest, htimes⟩ := ih (r + 1) (t + 1)
        refine ⟨n + 1, by simpa using hn, ?_, ?_, ?_⟩
        · rw [hstep]
          exact hsucc
        · rw [hstep]
          dsimp only
          rw [htest]
          rfl
        · intro i hi
          cases i with
          | zero => simpa using not_lt.mp htime
          | succ i2 =>
            have h2 := htimes i2 (by omega)
            rwa [show t + 1 + i2 = t + (i2 + 1) from by omega] at h2

/-- A capture failure at step `k` of a sweep phase ends that phase: exactly
the alphas up to and including step `k` are logged, the failed capture is
not retried, and the later alphas of the phase are never attempted. -/
theorem sweep_loop_read_fail (cv : CVOps) (lookup : Nat → Option Nat)
    (board_obj : Board) (env : Env) (thresh : Nat) (budget t0 : ℚ) (oldBGR : Img)
    (hfail : ∀ d, find_uci_move_from_difference_image lookup d board_obj = none) :
    ∀ (k : Nat) (as : List ℚ) (r t : Nat), k < as.length →
      (∀ l, l ≤ k → ¬env.time (t + l) - t0 > budget) →
      (∀ l, l < k → (env.read (r + l)).isSome = true) →
      env.read (r + k) = none →
      sweep_loop cv lookup board_obj env thresh budget t0 oldBGR as r t =
        ⟨none, as.take (k + 1), r + k + 1, t + k + 1⟩ := by
  intro k
  induction k with
  | zero =>
    intro as r t hk htime hreads hkread
    cases as with
    | nil => simp at hk
    | cons alpha_val rest =>
      have h0 : ¬env.time t - t0 > budget := by simpa using htime 0 (Nat.le_refl 0)
      have hr : env.read r = none := by simpa using hkread
      rw [sweep_loop_cons_read_none cv lookup board_obj env thresh budget t0 oldBGR
        alpha_val rest r t h0 hr]
      rfl
  | succ k2 ihk =>
    intro as r t hk htime hreads hkread
    cases as with
    | nil => simp at hk
    | cons alpha_val rest =>
      have h0 : ¬env.time t - t0 > budget := by simpa using htime 0 (Nat.zero_le _)
      have hr0 : (env.read r).isSome = true := by simpa using hreads 0 (Nat.succ_pos k2)
      obtain ⟨frame, hframe⟩ := Option.isSome_iff_exists.mp hr0
      have hstep := sweep_loop_cons_fail cv lookup board_obj env thresh budget t0 oldBGR
        alpha_val rest r t frame h0 hframe (hfail _)
      rw [hstep]
      dsimp only
      rw [ihk rest (r + 1) (t + 1) (by simpa using hk)
        (fun l hl => by
          have h2 := htime (l + 1) (by omega)
          rwa [show t + (l + 1) = t + 1 + l from by omega] at h2)
        (fun l hl => by
          have h2 := hreads (l + 1) (by omega)
          rwa [show r + (l + 1) = r + 1 + l from by omega] at h2)
        (by
          have h2 := hkread
          rwa [show r + (k2 + 1) = r + 1 + k2 from by omega] at h2)]
      have e1 : r + 1 + k2 + 1 = r + (k2 + 1) + 1 := by omega
      have e2 : t + 1 + k2 + 1 = t + (k2 + 1) + 1 := by omega
      rw [e1, e2]
      rfl

/-- Against a position with no legal moves the detector never reports a
move: either the gate fires, or no candidate passes the legality scan. -/
theorem find_uci_empty_legal (lookup : Nat → Option Nat) (d : Img) :
    find_uci_move_from_difference_image lookup d wBoardEmpty = none := by
  unfold find_uci_move_from_difference_image find_from_averages
  dsimp only
  split
  · rfl
  · apply List.find?_eq_none.mpr
    intro m _
    simp [wBoardEmpty]

/-- Claim C4: the retry sweep terminates: under total detection failure the
cycle returns `none`; the tested-alpha log is a prefix of the 9 phase-1
alphas (0.9 down to 0.1, threshold 40) followed by a prefix of the 11
phase-2 alphas (1.1 up to 2.1, threshold 70); every logged phase-1 step had
elapsed time at most 5 s and every logged phase-2 step at most 10 s from
the sweep start. -/
theorem retry_sweep_terminates_bounded (cv : CVOps) (lookup : Nat → Option Nat)
    (env : Env) (board_obj : Board) (st : VisionState)
    (hfail : ∀ d, find_uci_move_from_difference_image lookup d board_obj = none) :
    (detect_player_move_cycle cv lookup env board_obj st).move = none ∧
    ∃ n1 n2, n1 ≤ 9 ∧ n2 ≤ 11 ∧
      (detect_player_move_cycle cv lookup env board_obj st).tested =
        List.take n1 phase1_alphas ++ List.take n2 phase2_alphas ∧
      (∀ i, i < n1 → env.time (1 + i) - env.time 0 ≤ 5) ∧
      ∃ c, ∀ j2, j2 < n2 → env.time (c + j2) - env.time 0 ≤ 10 := by
  obtain ⟨p, a0⟩ := st
  by_cases hcap : env.capOpened = false
  · unfold detect_player_move_cycle
    rw [if_pos hcap]
    exact ⟨rfl, 0, 0, Nat.zero_le _, Nat.zero_le _, rfl,
      fun i hi => absurd hi (Nat.not_lt_zero i), 0, fun j2 hj => absurd hj (Nat.not_lt_zero j2)⟩
  · cases h0 : env.read 0 with
    | none =>
      unfold detect_player_move_cycle
      rw [if_neg hcap, h0]
      exact ⟨rfl, 0, 0, Nat.zero_le _, Nat.zero_le _, rfl,
        fun i hi => absurd hi (Nat.not_lt_zero i), 0, fun j2 hj => absurd hj (Nat.not_lt_zero j2)⟩
    | some f0 =>
      cases h1 : env.read 1 with
      | none =>
        unfold detect_player_move_cycle
        rw [if_neg hcap, h0]
        dsimp only
        rw [h1]
        exact ⟨rfl, 0, 0, Nat.zero_le _, Nat.zero_le _, rfl,
          fun i hi => absurd hi (Nat.not_lt_zero i), 0, fun j2 hj => absurd hj (Nat.not_lt_zero j2)⟩
      | some f1 =>
        cases p with
        | none =>
          unfold detect_player_move_cycle
          rw [if_neg hcap, h0]
          dsimp only
          rw [h1]
          dsimp only [detect]
          rw [hfail]
          dsimp only
          obtain ⟨n1, hn1, hs1, ht1, htm1⟩ := sweep_loop_spec cv lookup board_obj env 40 5
            (env.time 0) (cv.gray2bgr (cv.bgr2gray (cv.adjust a0 (cv.crop f0)))) hfail phase1_alphas 2 1
          rw [hs1]
          dsimp only
          obtain ⟨n2, hn2, hs2, ht2, htm2⟩ := sweep_loop_spec cv lookup board_obj env 70 10
            (env.time 0) (cv.gray2bgr (cv.bgr2gray (cv.adjust a0 (cv.crop f0)))) hfail phase2_alphas
            (sweep_loop cv lookup board_obj env 40 5 (env.time 0)
              (cv.gray2bgr (cv.bgr2gray (cv.adjust a0 (cv.crop f0)))) phase1_alphas 2 1).nReads
            (sweep_loop cv lookup board_obj env 40 5 (env.time 0)
              (cv.gray2bgr (cv.bgr2gray (cv.adjust a0 (cv.crop f0)))) phase1_alphas 2 1).nTimes
          rw [hs2]
          dsimp only
          refine ⟨rfl, n1, n2, by simpa using hn1, by simpa using hn2, ?_, htm1, _, htm2⟩
          rw [ht1, ht2]
        | some g0 =>
          unfold detect_player_move_cycle
          rw [if_neg hcap, h0]
          dsimp only
          rw [h1]
          dsimp only [detect]
          rw [hfail]
          dsimp only
          obtain ⟨n1, hn1, hs1, ht1, htm1⟩ := sweep_loop_spec cv lookup board_obj env 40 5
            (env.time 0) (cv.gray2bgr g0) hfail phase1_alphas 2 1
          rw [hs1]
          dsimp only
          obtain ⟨n2, hn2, hs2, ht2, htm2⟩ := sweep_loop_spec cv lookup board_obj env 70 10
            (env.time 0) (cv.gray2bgr g0) hfail phase2_alphas
            (sweep_loop cv lookup board_obj env 40 5 (env.time 0)
              (cv.gray2bgr g0) phase1_alphas 2 1).nReads
            (sweep_loop cv lookup board_obj env 40 5 (env.time 0)
              (cv.gray2bgr g0) phase1_alphas 2 1).nTimes
          rw [hs2]
          dsimp only
          refine ⟨rfl, n1, n2, by simpa using hn1, by simpa using hn2, ?_, htm1, _, htm2⟩
          rw [ht1, ht2]

/-- Witness for C4: a cycle in which every capture fails, against a
position with no legal moves. -/
theorem retry_sweep_terminates_bounded_witness :
    (∀ d, find_uci_move_from_difference_image wLookupNone d wBoardEmpty = none) ∧
    (detect_player_move_cycle wCVId wLookupNone wEnvFail wBoardEmpty wStSet).move = none :=
  ⟨fun d => find_uci_empty_legal wLookupNone d,
    (retry_sweep_terminates_bounded wCVId wLookupNone wEnvFail wBoardEmpty wStSet
      (fun d => find_uci_empty_legal wLookupNone d)).1⟩

/-- Claim C7, amended: a capture failure at sweep step `k` aborts the whole
remainder of the current phase, not just that step: the phase logs exactly
the alphas through step `k` (the failed capture is never retried), the
remaining phase-1 alphas are skipped, and the sweep continues with phase 2
from its first alpha. -/
theorem sweep_capture_failure_aborts_phase (cv : CVOps) (lookup : Nat → Option Nat)
    (env : Env) (board_obj : Board) (st : VisionState) (g0 f0 f1 : Img) (k : Nat)
    (hpers : st.persisted_board_gray = some g0)
    (hcap : env.capOpened = true)
    (h0 : env.read 0 = some f0)
    (h1 : env.read 1 = some f1)
    (hfail : ∀ d, find_uci_move_from_difference_image lookup d board_obj = none)
    (hk : k < 9)
    (htime : ∀ l, l ≤ k → ¬env.time (1 + l) - env.time 0 > 5)
    (hreads : ∀ l, l < k → (env.read (2 + l)).isSome = true)
    (hkfail : env.read (2 + k) = none) :
    (detect_player_move_cycle cv lookup env board_obj st).move = none ∧
    ∃ n2, n2 ≤ 11 ∧
      (detect_player_move_cycle cv lookup env board_obj st).tested =
        List.take (k + 1) phase1_alphas ++ List.take n2 phase2_alphas := by
  obtain ⟨p, a0⟩ := st
  simp only [VisionState.persisted_board_gray] at hpers
  subst hpers
  have hcap2 : ¬env.capOpened = false := by simp [hcap]
  unfold detect_player_move_cycle
  rw [if_neg hcap2, h0]
  dsimp only
  rw [h1]
  dsimp only [detect]
  rw [hfail]
  dsimp only
  have hp1 := sweep_loop_read_fail cv lookup board_obj env 40 5 (env.time 0)
    (cv.gray2bgr g0) hfail k phase1_alphas 2 1 (by simpa using hk) htime hreads hkfail
  rw [hp1]
  dsimp only
  obtain ⟨n2, hn2, hs2, ht2, htm2⟩ := sweep_loop_spec cv lookup board_obj env 70 10
    (env.time 0) (cv.gray2bgr g0) hfail phase2_alphas (2 + k + 1) (1 + k + 1)
  rw [hs2]
  dsimp only
  exact ⟨rfl, n2, by simpa using hn2, by rw [ht2]⟩

/-- Reduction of a full cycle to its two sweep phases, once the camera is
open, both initial reads succeed, the reference is set and the initial
detection attempt fails. -/
theorem cycle_to_sweep (cv : CVOps) (lookup : Nat → Option Nat) (env : Env)
    (board_obj : Board) (g0 : Img) (a0 : ℚ) (f0 f1 : Img)
    (hcap : env.capOpened = true)
    (h0 : env.read 0 = some f0)
    (h1 : env.read 1 = some f1)
    (hdet : detect cv.blur lookup (cv.bgr2gray (cv.adjust a0 (cv.gray2bgr g0)))
      (cv.bgr2gray (cv.adjust a0 (cv.crop f1))) 20 board_obj = none) :
    detect_player_move_cycle cv lookup env board_obj ⟨some g0, a0⟩ =
      (let p1 := sweep_loop cv lookup board_obj env 40 5 (env.time 0) (cv.gray2bgr g0)
        phase1_alphas 2 1
       match p1.success with
       | some (m, a, g) => ⟨some m, ⟨some g, a⟩, p1.tested, some (a, g)⟩
       | none =>
         let p2 := sweep_loop cv lookup board_obj env 70 10 (env.time 0) (cv.gray2bgr g0)
           phase2_alphas p1.nReads p1.nTimes
         match p2.success with
         | some (m, a, g) => ⟨some m, ⟨some g, a⟩, p1.tested ++ p2.tested, some (a, g)⟩
         | none => ⟨none, ⟨some g0, a0⟩, p1.tested ++ p2.tested, none⟩) := by
  unfold detect_player_move_cycle
  rw [if_neg (show ¬env.capOpened = false from by simp [hcap]), h0]
  dsimp only
  rw [h1]
  dsimp only
  rw [hdet]

/-- Fixture for C7: reads 0 and 1 succeed, every sweep capture fails. -/
def wEnvCapFail : Env := ⟨true, fun k => if k ≤ 1 then some zeroTiles else none, fun _ => 0⟩

/-- Counterexample to claim C7 as stated: with the first sweep capture
failing (at alpha 0.9) the code does not continue with the next alpha step
0.8 — it skips the rest of phase 1 entirely, logging only 0.9 and then
phase 2's 1.1 (whose capture also fails, ending the sweep). -/
theorem sweep_capture_failure_counterexample :
    (detect_player_move_cycle wCVId wLookupNone wEnvCapFail wBoardEmpty wStSet).tested =
      [9/10, 11/10] ∧
    (8/10 : ℚ) ∉ (detect_player_move_cycle wCVId wLookupNone wEnvCapFail wBoardEmpty
      wStSet).tested := by
  have hcyc : (detect_player_move_cycle wCVId wLookupNone wEnvCapFail wBoardEmpty
      wStSet).tested = [9/10, 11/10] := by
    rw [show wStSet = (⟨some zeroTiles, 1⟩ : VisionState) from rfl]
    rw [cycle_to_sweep wCVId wLookupNone wEnvCapFail wBoardEmpty zeroTiles 1
      zeroTiles zeroTiles rfl rfl rfl (detect_same_none _ _ _ _ _)]
    dsimp only
    simp only [phase1_alphas]
    rw [sweep_loop_cons_read_none wCVId wLookupNone wBoardEmpty wEnvCapFail 40 5
      (wEnvCapFail.time 0) (wCVId.gray2bgr zeroTiles) (9/10)
      [8/10, 7/10, 6/10, 5/10, 4/10, 3/10, 2/10, 1/10] 2 1
      (by norm_num [wEnvCapFail]) rfl]
    dsimp only
    simp only [phase2_alphas]
    rw [sweep_loop_cons_read_none wCVId wLookupNone wBoardEmpty wEnvCapFail 70 10
      (wEnvCapFail.time 0) (wCVId.gray2bgr zeroTiles) (11/10)
      [12/10, 13/10, 14/10, 15/10, 16/10, 17/10, 18/10, 19/10, 20/10, 21/10] 3 2
      (by norm_num [wEnvCapFail]) rfl]
    rfl
  refine ⟨hcyc, ?_⟩
  rw [hcyc]
  norm_num

/-- Witness for the amended C7 at `k = 0`: the first sweep capture fails,
phase 1 logs only 0.9, phase 2 runs from its first alpha. -/
theorem sweep_capture_failure_aborts_phase_witness :
    wEnvCapFail.read (2 + 0) = none ∧
    (detect_player_move_cycle wCVId wLookupNone wEnvCapFail wBoardEmpty wStSet).move = none ∧
    ∃ n2, n2 ≤ 11 ∧
      (detect_player_move_cycle wCVId wLookupNone wEnvCapFail wBoardEmpty wStSet).tested =
        List.take (0 + 1) phase1_alphas ++ List.take n2 phase2_alphas :=
  ⟨rfl,
    sweep_capture_failure_aborts_phase wCVId wLookupNone wEnvCapFail wBoardEmpty wStSet
      zeroTiles zeroTiles zeroTiles 0 rfl rfl rfl rfl
      (fun d => find_uci_empty_legal wLookupNone d)
      (by norm_num)
      (fun l hl => by norm_num [wEnvCapFail])
      (fun l hl => absurd hl (Nat.not_lt_zero l))
      rfl⟩

theorem absdiff_zeroTiles (img : Img) : absdiff zeroTiles img = img := by
  funext y x
  simp [absdiff, zeroTiles, tileImg]

theorem find_uci_tileImg (lookup : Nat → Option Nat) (f : Nat → Nat) (b : Board) :
    find_uci_move_from_difference_image lookup (tileImg f) b =
      find_from_averages lookup ((List.range 64).map fun x => (f x : ℚ)) b := by
  rw [find_uci_move_from_difference_image, averages_tileImg]

/-- Fixture for C5: frames zero, zero, pattern; later captures fail. -/
def wEnvSweep : Env :=
  ⟨true, fun k => if k ≤ 1 then some zeroTiles else if k = 2 then some wPatImg else none,
   fun _ => 0⟩

theorem wSweep_find :
    find_uci_move_from_difference_image wLookupTable
      (cv_threshold
        (board_difference wCVId.blur (wCVId.bgr2gray (wCVId.adjust (9/10) (wCVId.gray2bgr zeroTiles)))
          (wCVId.bgr2gray (wCVId.crop (wCVId.adjust (9/10) wPatImg)))) 40) wBoardOne =
      some (Move.mk 11 52) := by
  have himg : cv_threshold
      (board_difference wCVId.blur (wCVId.bgr2gray (wCVId.adjust (9/10) (wCVId.gray2bgr zeroTiles)))
        (wCVId.bgr2gray (wCVId.crop (wCVId.adjust (9/10) wPatImg)))) 40 =
      tileImg (fun i => if 40 < wPat i then 255 else 0) := by
    funext y x
    simp [wCVId, board_difference, absdiff, cv_threshold, zeroTiles, wPatImg, tileImg]
  simp only [himg, find_uci_tileImg]
  decide

theorem wSweep_phase1 :
    sweep_loop wCVId wLookupTable wBoardOne wEnvSweep 40 5 (wEnvSweep.time 0)
      (wCVId.gray2bgr zeroTiles) phase1_alphas 2 1 =
      ⟨some (Move.mk 11 52, 9/10, wCVId.bgr2gray (wCVId.crop (wCVId.adjust (9/10) wPatImg))),
        [9/10], 3, 2⟩ := by
  simp only [phase1_alphas]
  exact sweep_loop_cons_success wCVId wLookupTable wBoardOne wEnvSweep 40 5
    (wEnvSweep.time 0) (wCVId.gray2bgr zeroTiles) (9/10)
    [8/10, 7/10, 6/10, 5/10, 4/10, 3/10, 2/10, 1/10] 2 1 wPatImg (Move.mk 11 52)
    (by norm_num [wEnvSweep]) rfl wSweep_find

/-- Witness for C5: the sweep succeeds at alpha 0.9 on the pattern frame
and the cycle persists exactly that alpha and that frame's grayscale. -/
theorem sweep_success_rebases_state_witness :
    (detect_player_move_cycle wCVId wLookupTable wEnvSweep wBoardOne
      ⟨some zeroTiles, 1⟩).sweepSuccess =
      some (9/10, wCVId.bgr2gray (wCVId.crop (wCVId.adjust (9/10) wPatImg))) ∧
    (detect_player_move_cycle wCVId wLookupTable wEnvSweep wBoardOne
      ⟨some zeroTiles, 1⟩).state =
      ⟨some (wCVId.bgr2gray (wCVId.crop (wCVId.adjust (9/10) wPatImg))), 9/10⟩ := by
  have hks : (detect_player_move_cycle wCVId wLookupTable wEnvSweep wBoardOne
      ⟨some zeroTiles, 1⟩).sweepSuccess =
      some (9/10, wCVId.bgr2gray (wCVId.crop (wCVId.adjust (9/10) wPatImg))) := by
    simp only [cycle_to_sweep wCVId wLookupTable wEnvSweep wBoardOne zeroTiles 1 zeroTiles
      zeroTiles rfl rfl rfl (detect_same_none _ _ _ _ _), wSweep_phase1]
  exact ⟨hks, sweep_success_rebases_state wCVId wLookupTable wEnvSweep wBoardOne
    ⟨some zeroTiles, 1⟩ (9/10) _ hks⟩
